import Mathlib

/-!
Verification development for the chzzk VOD downloader (src/gui.py, src/main.py).

The repository has two source files sharing one extractor class:
* `src/gui.py` — PyQt GUI; `DownloadThread.run` is the sequential streaming
  download loop; `ChzzkStreamExtractor.extract_streams` / `_get_vod_streams`
  do link parsing and metadata resolution (cookies passed as an argument).
* `src/main.py` — CLI; same extractor, `download_video` is the concurrent
  segmented download; metadata resolution loads cookies from a file.

Strings are modelled as `List Char`.  Byte strings are modelled as
`List Nat`.  Machine integers do not overflow in any modelled computation
(sizes are Python arbitrary-precision ints), so `Nat` is used directly.
-/

namespace Chzzk

/-! ## Link parsing (gui.py line 78, main.py line 23)

Both files match the link against the regular expression
`https?://chzzk\.naver\.com/(?:video/(?P<video_no>\d+)|live/(?P<channel_id>[^/?]+))$`
with `re.match` (anchored at the start of the string).  Without
`re.MULTILINE`, Python's `$` matches at the end of the string or just
before a newline at the end of the string.  `\d` is modelled as decimal
digits (`Char.isDigit`).  The model below is the standard backtracking
semantics of this pattern, determinized: because the character classes of
the two groups cannot match the characters `$` can stop at, greedy
maximal munch is equivalent to full backtracking (established case by
case in the lemmas further down). -/

/-- Strip an exact literal from the front of a string, the way the regex
engine consumes the literal parts of the pattern. -/
def dropLit : List Char → List Char → Option (List Char)
  | [], s => some s
  | _ :: _, [] => none
  | c :: cs, x :: xs => if x = c then dropLit cs xs else none

/-- Literal `http` of the pattern. -/
def httpLit : List Char := ['h', 't', 't', 'p']

/-- Literal `s://chzzk.naver.com/` (the branch of `https?` that takes the `s`). -/
def sSchemeHost : List Char := 's' :: [':', '/', '/', 'c', 'h', 'z', 'z', 'k', '.', 'n', 'a', 'v', 'e', 'r', '.', 'c', 'o', 'm', '/']

/-- Literal `://chzzk.naver.com/` (the branch of `https?` without the `s`). -/
def schemeHost : List Char := [':', '/', '/', 'c', 'h', 'z', 'z', 'k', '.', 'n', 'a', 'v', 'e', 'r', '.', 'c', 'o', 'm', '/']

/-- Literal `video/`. -/
def videoLit : List Char := ['v', 'i', 'd', 'e', 'o', '/']

/-- Literal `live/`. -/
def liveLit : List Char := ['l', 'i', 'v', 'e', '/']

/-- Consume `https?://chzzk\.naver\.com/`: the greedy optional `s` is tried
first; since `s` differs from `:`, this is deterministic. -/
def schemeRest (s : List Char) : Option (List Char) :=
  match dropLit httpLit s with
  | none => none
  | some r =>
    match dropLit sSchemeHost r with
    | some r2 => some r2
    | none => dropLit schemeHost r

/-- The character class `[^/?]` of the `channel_id` group. -/
def isSlugChar (c : Char) : Bool := !(c = '/' || c = '?')

/-- Python `$` without `re.MULTILINE`: succeeds at the end of the string,
or just before a newline that ends the string. -/
def endOk : List Char → Bool
  | [] => true
  | [c] => c = '\n'
  | _ :: _ :: _ => false

/-- The branch `video/(?P<video_no>\d+)` followed by `$`: greedy digits,
then the end anchor. -/
def vodTail (r : List Char) : Option (List Char) :=
  match dropLit videoLit r with
  | none => none
  | some r2 =>
    let ds := r2.takeWhile Char.isDigit
    if !ds.isEmpty && endOk (r2.dropWhile Char.isDigit) then some ds else none

/-- The branch `live/(?P<channel_id>[^/?]+)` followed by `$`. -/
def liveTail (r : List Char) : Option (List Char) :=
  match dropLit liveLit r with
  | none => none
  | some r2 =>
    let sl := r2.takeWhile isSlugChar
    if !sl.isEmpty && endOk (r2.dropWhile isSlugChar) then some sl else none

/-- `re.match` of the whole pattern: returns the pair of named groups
`(video_no, channel_id)` on success (exactly one of the two is populated),
`none` when the link does not match. -/
def linkMatch (s : List Char) : Option (Option (List Char) × Option (List Char)) :=
  match schemeRest s with
  | none => none
  | some r =>
    match vodTail r with
    | some ds => some (some ds, none)
    | none =>
      match liveTail r with
      | some sl => some (none, some sl)
      | none => none

/-- Python `str.format` interpolation of a value that is either a string
or `None`: `None` prints as the four characters `None`. -/
def pyFormatOpt : Option (List Char) → List Char
  | none => ['N', 'o', 'n', 'e']
  | some s => s

/-- The constant part of `VOD_INFO = "https://api.chzzk.naver.com/service/v2/videos/{video_no}"`. -/
def VOD_INFO_pre : List Char := "https://api.chzzk.naver.com/service/v2/videos/".toList

/-- Outcome of `extract_streams` up to the hand-off to `_get_vod_streams`:
either the invalid-link rejection (gui.py line 80 message box / main.py
line 25 print, returning `None`), or the call to `_get_vod_streams` with
the matched `video_no` group, which immediately formats the video-info
URL from it (gui.py line 133, main.py line 90). -/
inductive ExtractResult where
  | invalidLink : ExtractResult
  | callGetVod : Option (List Char) → List Char → ExtractResult
deriving DecidableEq

/-- `ChzzkStreamExtractor.extract_streams` (gui.py lines 72–85, main.py
lines 17–30): match the link; on failure report invalid link; otherwise
pass `match.group("video_no")` — which is `None` for a `live/` link — to
`_get_vod_streams`, whose first act is to format the API URL from it. -/
def extract_streams (link : List Char) : ExtractResult :=
  match linkMatch link with
  | none => .invalidLink
  | some (video_no, _) => .callGetVod video_no (VOD_INFO_pre ++ pyFormatOpt video_no)

/-! ### The link shapes as the specification words them

`spec.md` §4.1/§8: exactly two accepted shapes, "anchored to the full
string (no trailing path/query tolerated beyond what the pattern allows)",
and §6 gives the input-link scheme as `https://<platform-domain>/...` —
https only.  These two definitions follow the spec's words (https scheme,
full-string anchoring, no tolerated suffix) and are compared against the
code's `linkMatch`, whose pattern instead begins with `https?` and whose
`$` tolerates one trailing newline. -/

/-- The spec's link head `https://chzzk.naver.com/`, as one literal. -/
def httpsHostLit : List Char := "https://chzzk.naver.com/".toList

/-- The `http://chzzk.naver.com/` head that the code's `https?` pattern
additionally accepts (not a spec shape). -/
def httpHostLit : List Char := "http://chzzk.naver.com/".toList

/-- Modelled from the spec: the accepted VOD shape,
`https://chzzk.naver.com/video/<nonempty digits>` as the entire string. -/
def specVodShape (s : List Char) : Bool :=
  match dropLit httpsHostLit s with
  | none => false
  | some r =>
    match dropLit videoLit r with
    | none => false
    | some ds => !ds.isEmpty && ds.all Char.isDigit

/-- Modelled from the spec: the accepted live-channel shape,
`https://chzzk.naver.com/live/<nonempty slug>` as the entire string. -/
def specLiveShape (s : List Char) : Bool :=
  match dropLit httpsHostLit s with
  | none => false
  | some r =>
    match dropLit liveLit r with
    | none => false
    | some sl => !sl.isEmpty && sl.all isSlugChar

/-! ### Helper lemmas about the matcher -/

lemma dropLit_self (xs r : List Char) : dropLit xs (xs ++ r) = some r := by
  induction xs with
  | nil => rfl
  | cons c cs ih => simp [dropLit, ih]

lemma dropLit_sound : ∀ (xs s r : List Char), dropLit xs s = some r → s = xs ++ r := by
  intro xs
  induction xs with
  | nil => intro s r h; simpa [dropLit] using h
  | cons c cs ih =>
    intro s r h
    cases s with
    | nil => simp [dropLit] at h
    | cons x xs2 =>
      simp only [dropLit] at h
      by_cases hx : x = c
      · subst hx
        rw [if_pos rfl] at h
        simpa using ih xs2 r h
      · rw [if_neg hx] at h
        cases h

lemma takeWhile_split (p : Char → Bool) (ds t : List Char)
    (h1 : ∀ c ∈ ds, p c = true)
    (h2 : ∀ c cs, t = c :: cs → p c = false) :
    (ds ++ t).takeWhile p = ds ∧ (ds ++ t).dropWhile p = t := by
  induction ds with
  | nil =>
    cases t with
    | nil => simp
    | cons c cs => simp [List.takeWhile_cons, List.dropWhile_cons, h2 c cs rfl]
  | cons d ds ih =>
    have hd : p d = true := h1 d (by simp)
    have hrest : ∀ c ∈ ds, p c = true := fun c hc => h1 c (by simp [hc])
    have := ih hrest
    simp [List.takeWhile_cons, List.dropWhile_cons, hd, this.1, this.2]

lemma dropWhile_head_false (p : Char → Bool) :
    ∀ (l : List Char) (c : Char) (cs : List Char), l.dropWhile p = c :: cs → p c = false := by
  intro l
  induction l with
  | nil => intro c cs h; cases h
  | cons x xs ih =>
    intro c cs h
    by_cases hx : p x = true
    · rw [List.dropWhile_cons, if_pos hx] at h
      exact ih c cs h
    · rw [List.dropWhile_cons, if_neg hx] at h
      cases h
      simpa using hx

lemma endOk_sound : ∀ (t : List Char), endOk t = true → t = [] ∨ t = ['\n']
  | [], _ => Or.inl rfl
  | [c], h => Or.inr (by
      have hc : c = '\n' := by simpa [endOk] using h
      rw [hc])
  | _ :: _ :: _, h => by simp [endOk] at h

lemma schemeRest_https (r : List Char) : schemeRest (httpLit ++ (sSchemeHost ++ r)) = some r := by
  simp only [schemeRest, dropLit_self]

lemma schemeRest_http (r : List Char) : schemeRest (httpLit ++ (schemeHost ++ r)) = some r := by
  have hnone : dropLit sSchemeHost (schemeHost ++ r) = none := rfl
  simp only [schemeRest, dropLit_self, hnone]

lemma schemeRest_sound (s r : List Char) (h : schemeRest s = some r) :
    s = httpLit ++ (sSchemeHost ++ r) ∨ s = httpLit ++ (schemeHost ++ r) := by
  unfold schemeRest at h
  cases hh : dropLit httpLit s with
  | none => rw [hh] at h; cases h
  | some r1 =>
    rw [hh] at h
    dsimp only at h
    have hs1 : s = httpLit ++ r1 := dropLit_sound _ _ _ hh
    cases hs : dropLit sSchemeHost r1 with
    | some r2 =>
      rw [hs] at h
      dsimp only at h
      cases h
      exact Or.inl (by rw [hs1, dropLit_sound _ _ _ hs])
    | none =>
      rw [hs] at h
      dsimp only at h
      exact Or.inr (by rw [hs1, dropLit_sound _ _ _ h])

lemma httpsHostLit_eq : httpsHostLit = httpLit ++ sSchemeHost := by decide

lemma httpHostLit_eq : httpHostLit = httpLit ++ schemeHost := by decide

lemma takeWhile_all (p : Char → Bool) (l : List Char) (h : ∀ c ∈ l, p c = true) :
    l.takeWhile p = l ∧ l.dropWhile p = [] := by
  have := takeWhile_split p l [] h (fun c cs hcs => by cases hcs)
  simpa using this

lemma vodTail_sound (r ds : List Char) (h : vodTail r = some ds) :
    (∀ c ∈ ds, c.isDigit = true) ∧ ds ≠ [] ∧
      (r = videoLit ++ ds ∨ r = videoLit ++ (ds ++ ['\n'])) := by
  unfold vodTail at h
  cases hd : dropLit videoLit r with
  | none => rw [hd] at h; cases h
  | some r2 =>
    rw [hd] at h
    dsimp only at h
    by_cases hc : (!(r2.takeWhile Char.isDigit).isEmpty && endOk (r2.dropWhile Char.isDigit)) = true
    · rw [if_pos hc] at h
      cases h
      simp only [Bool.and_eq_true, Bool.not_eq_true'] at hc
      obtain ⟨hemp, hend⟩ := hc
      refine ⟨fun c hc' => List.mem_takeWhile_imp hc', ?_, ?_⟩
      · intro h0
        rw [h0] at hemp
        simp at hemp
      · have hr2 : r2 = r2.takeWhile Char.isDigit ++ r2.dropWhile Char.isDigit :=
          (List.takeWhile_append_dropWhile _ _).symm
        rcases endOk_sound _ hend with h1 | h1
        · refine Or.inl ?_
          rw [dropLit_sound _ _ _ hd]
          congr 1
          conv_lhs => rw [hr2]
          rw [h1, List.append_nil]
        · refine Or.inr ?_
          rw [dropLit_sound _ _ _ hd]
          congr 1
          conv_lhs => rw [hr2]
          rw [h1]
    · rw [if_neg hc] at h
      cases h

lemma liveTail_sound (r sl : List Char) (h : liveTail r = some sl) :
    (∀ c ∈ sl, isSlugChar c = true) ∧ sl ≠ [] ∧ r = liveLit ++ sl := by
  unfold liveTail at h
  cases hd : dropLit liveLit r with
  | none => rw [hd] at h; cases h
  | some r2 =>
    rw [hd] at h
    dsimp only at h
    by_cases hc : (!(r2.takeWhile isSlugChar).isEmpty && endOk (r2.dropWhile isSlugChar)) = true
    · rw [if_pos hc] at h
      cases h
      simp only [Bool.and_eq_true, Bool.not_eq_true'] at hc
      obtain ⟨hemp, hend⟩ := hc
      refine ⟨fun c hc' => List.mem_takeWhile_imp hc', ?_, ?_⟩
      · intro h0
        rw [h0] at hemp
        simp at hemp
      · have hr2 : r2 = r2.takeWhile isSlugChar ++ r2.dropWhile isSlugChar :=
          (List.takeWhile_append_dropWhile _ _).symm
        rcases endOk_sound _ hend with h1 | h1
        · rw [dropLit_sound _ _ _ hd]
          congr 1
          conv_lhs => rw [hr2]
          rw [h1, List.append_nil]
        · exact absurd (dropWhile_head_false isSlugChar r2 '\n' [] h1) (by simp [isSlugChar])
    · rw [if_neg hc] at h
      cases h

lemma vodTail_shape (ds t : List Char) (hne : ds ≠ [])
    (hdig : ∀ c ∈ ds, c.isDigit = true) (ht : t = [] ∨ t = ['\n']) :
    vodTail (videoLit ++ (ds ++ t)) = some ds := by
  unfold vodTail
  rw [dropLit_self]
  dsimp only
  have hsplit := takeWhile_split Char.isDigit ds t hdig (by
    intro c cs hcs
    rcases ht with h1 | h1
    · rw [h1] at hcs; cases hcs
    · rw [h1] at hcs
      cases hcs
      rfl)
  rw [hsplit.1, hsplit.2]
  have hend : endOk t = true := by rcases ht with h1 | h1 <;> rw [h1] <;> rfl
  have hemp : ds.isEmpty = false := by
    cases ds with
    | nil => exact absurd rfl hne
    | cons c cs => rfl
  rw [hend, hemp]
  rfl

lemma liveTail_shape (sl : List Char) (hne : sl ≠ [])
    (hslug : ∀ c ∈ sl, isSlugChar c = true) :
    liveTail (liveLit ++ sl) = some sl := by
  unfold liveTail
  rw [dropLit_self]
  dsimp only
  have hall := takeWhile_all isSlugChar sl hslug
  rw [hall.1, hall.2]
  have hemp : sl.isEmpty = false := by
    cases sl with
    | nil => exact absurd rfl hne
    | cons c cs => rfl
  rw [hemp]
  rfl

/-! ### Claims C6 and C9 -/

/-- C6 counterexample: the string `https://chzzk.naver.com/video/123` with a
trailing newline matches neither accepted shape of the spec (the shapes are
anchored to the full string with no tolerated suffix), yet `extract_streams`
does not fail with the invalid-link outcome, because Python's `$` without
`re.MULTILINE` also matches just before a newline that ends the string. -/
theorem c6_counterexample :
    extract_streams ("https://chzzk.naver.com/video/123\n".toList)
      = .callGetVod (some ['1', '2', '3']) (VOD_INFO_pre ++ ['1', '2', '3'])
    ∧ specVodShape ("https://chzzk.naver.com/video/123\n".toList) = false
    ∧ specLiveShape ("https://chzzk.naver.com/video/123\n".toList) = false := by
  decide

/-- C6 amended: for every link of the accepted (https) VOD shape,
optionally followed by a single trailing newline, `extract_streams`
extracts exactly the numeric substring as the identifier; and every string
it does not reject with the invalid-link outcome deviates from the spec's
accepted shapes in at most two tolerated ways: its scheme may be `http`
instead of the spec's `https` (the code's pattern is `https?`), and, after
normalizing the scheme to `https`, it matches an accepted shape up to one
trailing newline after the VOD shape (a live-shape slug may itself contain
the newline, since the slug class `[^/?]` admits it). -/
theorem c6_amended_link_shapes :
    (∀ ds t : List Char, ds ≠ [] → (∀ c ∈ ds, c.isDigit = true) → (t = [] ∨ t = ['\n']) →
      extract_streams ("https://chzzk.naver.com/video/".toList ++ ds ++ t)
        = .callGetVod (some ds) (VOD_INFO_pre ++ ds))
    ∧ (∀ s : List Char, extract_streams s ≠ .invalidLink →
      ∃ tl, (s = httpsHostLit ++ tl ∨ s = httpHostLit ++ tl)
        ∧ (specVodShape (httpsHostLit ++ tl) = true
            ∨ specLiveShape (httpsHostLit ++ tl) = true
            ∨ ∃ t2, tl = t2 ++ ['\n'] ∧ specVodShape (httpsHostLit ++ t2) = true)) := by
  constructor
  · intro ds t hne hdig ht
    have hs : "https://chzzk.naver.com/video/".toList ++ ds ++ t
        = httpLit ++ (sSchemeHost ++ (videoLit ++ (ds ++ t))) := by
      have h0 : "https://chzzk.naver.com/video/".toList
          = httpLit ++ (sSchemeHost ++ videoLit) := by decide
      rw [h0]
      simp [List.append_assoc]
    have hm : linkMatch ("https://chzzk.naver.com/video/".toList ++ ds ++ t)
        = some (some ds, none) := by
      unfold linkMatch
      rw [hs, schemeRest_https]
      dsimp only
      rw [vodTail_shape ds t hne hdig ht]
    unfold extract_streams
    rw [hm]
    rfl
  · intro s hinv
    obtain ⟨pr, hlm⟩ : ∃ pr, linkMatch s = some pr := by
      cases hlm : linkMatch s with
      | none => exact absurd (by unfold extract_streams; rw [hlm]) hinv
      | some pr => exact ⟨pr, rfl⟩
    unfold linkMatch at hlm
    cases hsch : schemeRest s with
    | none => rw [hsch] at hlm; cases hlm
    | some r =>
      rw [hsch] at hlm
      dsimp only at hlm
      refine ⟨r, ?_, ?_⟩
      · rcases schemeRest_sound s r hsch with hseq | hseq
        · exact Or.inl (by rw [hseq, httpsHostLit_eq, List.append_assoc])
        · exact Or.inr (by rw [hseq, httpHostLit_eq, List.append_assoc])
      · cases hv : vodTail r with
        | some ds =>
          obtain ⟨hdig, hne, hr⟩ := vodTail_sound r ds hv
          have hemp : ds.isEmpty = false := by
            cases ds with
            | nil => exact absurd rfl hne
            | cons c cs => rfl
          have hall : ds.all Char.isDigit = true := List.all_eq_true.mpr hdig
          have hshape : specVodShape (httpsHostLit ++ (videoLit ++ ds)) = true := by
            unfold specVodShape
            rw [dropLit_self]
            dsimp only
            rw [dropLit_self]
            dsimp only
            rw [hemp, hall]
            rfl
          rcases hr with hr | hr
          · exact Or.inl (by rw [hr]; exact hshape)
          · refine Or.inr (Or.inr ⟨videoLit ++ ds, ?_, hshape⟩)
            rw [hr]
            simp [List.append_assoc]
        | none =>
          rw [hv] at hlm
          dsimp only at hlm
          cases hl : liveTail r with
          | none => rw [hl] at hlm; cases hlm
          | some sl =>
            obtain ⟨hslug, hne, hr⟩ := liveTail_sound r sl hl
            refine Or.inr (Or.inl ?_)
            rw [hr]
            unfold specLiveShape
            rw [dropLit_self]
            dsimp only
            rw [dropLit_self]
            dsimp only
            have hemp : sl.isEmpty = false := by
              cases sl with
              | nil => exact absurd rfl hne
              | cons c cs => rfl
            rw [hemp, List.all_eq_true.mpr hslug]
            rfl

/-- C6 witness: both halves of the amended statement applied at concrete
inputs — the VOD link with identifier 123 and no suffix, and the live link
with slug `a`, which is accepted, is already an https link, and matches
the spec's live shape. -/
theorem c6_witness :
    extract_streams ("https://chzzk.naver.com/video/".toList ++ ['1', '2', '3'] ++ [])
      = .callGetVod (some ['1', '2', '3']) (VOD_INFO_pre ++ ['1', '2', '3'])
    ∧ (∃ tl, ("https://chzzk.naver.com/live/a".toList = httpsHostLit ++ tl
          ∨ "https://chzzk.naver.com/live/a".toList = httpHostLit ++ tl)
        ∧ (specVodShape (httpsHostLit ++ tl) = true
            ∨ specLiveShape (httpsHostLit ++ tl) = true
            ∨ ∃ t2, tl = t2 ++ ['\n'] ∧ specVodShape (httpsHostLit ++ t2) = true)) :=
  ⟨c6_amended_link_shapes.1 ['1', '2', '3'] [] (by decide) (by decide) (Or.inl rfl),
   c6_amended_link_shapes.2 ("https://chzzk.naver.com/live/a".toList) (by decide)⟩

/-- C9: for every input link of the live-channel shape, `extract_streams`
does not reject the link: the match succeeds with the `video_no` group
absent (`None`), and resolution proceeds by formatting the video-info URL
with the literal text `None` in place of the identifier (gui.py line 133,
main.py line 90), rather than rejecting the link or using the slug. -/
theorem c9_live_link_resolves_with_none (slug : List Char)
    (h1 : slug ≠ []) (h2 : ∀ c ∈ slug, isSlugChar c = true) :
    extract_streams ("https://chzzk.naver.com/live/".toList ++ slug)
      = .callGetVod none (VOD_INFO_pre ++ "None".toList) := by
  have hs : "https://chzzk.naver.com/live/".toList ++ slug
      = httpLit ++ (sSchemeHost ++ (liveLit ++ slug)) := by
    have h0 : "https://chzzk.naver.com/live/".toList
        = httpLit ++ (sSchemeHost ++ liveLit) := by decide
    rw [h0]
    simp [List.append_assoc]
  have hm : linkMatch ("https://chzzk.naver.com/live/".toList ++ slug)
      = some (none, some slug) := by
    unfold linkMatch
    rw [hs, schemeRest_https]
    dsimp only
    have hv : vodTail (liveLit ++ slug) = none := rfl
    rw [hv]
    dsimp only
    rw [liveTail_shape slug h1 h2]
  unfold extract_streams
  rw [hm]
  rfl

/-- C9 witness: the live link with slug `abc` resolves to the call of
`_get_vod_streams` with identifier `None` and the API URL ending in `None`. -/
theorem c9_witness :
    extract_streams ("https://chzzk.naver.com/live/".toList ++ "abc".toList)
      = .callGetVod none (VOD_INFO_pre ++ "None".toList) :=
  c9_live_link_resolves_with_none ("abc".toList) (by decide) (by decide)

/-! ## Metadata resolution: `_get_vod_streams` (gui.py lines 131–175)

The environment of one resolution is the video-info response to the first
request and the response to the (possible) second request.  A response is
modelled by its HTTP status, whether its body parses as JSON, and the
`videoId` / `inKey` fields of its `content` object (`None` when absent).
`requests`' `raise_for_status()` raises `HTTPError`, a subclass of
`RequestException`, exactly when `400 ≤ status` (client and server error
codes).  The `cookies` argument enters the control flow only through its
Python truthiness, modelled as a `Bool`.

The same method in main.py (lines 88–141) has the identical
`raise_for_status`-before-404-check structure; its retry condition differs
(it loads cookies from a file after testing `video_id is None or in_key is
None`), so the gui.py version — the one the claims cite for the retry
logic — is the one embedded here. -/

/-- One video-info HTTP response as `_get_vod_streams` observes it. -/
structure VodInfoResponse where
  status : Nat
  jsonOk : Bool
  videoId : Option (List Char)
  inKey : Option (List Char)
deriving DecidableEq

/-- The constant parts of
`VOD_URL = "https://apis.naver.com/neonplayer/vodplay/v2/playback/{video_id}?key={in_key}"`. -/
def VOD_URL_pre : List Char := "https://apis.naver.com/neonplayer/vodplay/v2/playback/".toList

/-- The `?key=` part of the playback URL template. -/
def VOD_URL_mid : List Char := "?key=".toList

/-- gui.py line 160: `VOD_URL.format(video_id=video_id, in_key=in_key)` —
composed unconditionally, with `None` interpolated for a missing credential. -/
def playbackUrl (video_id in_key : Option (List Char)) : List Char :=
  VOD_URL_pre ++ pyFormatOpt video_id ++ VOD_URL_mid ++ pyFormatOpt in_key

/-- Outcome of `_get_vod_streams` up to the hand-off to the manifest fetch:
* `fetchFailed` — the `except requests.RequestException` handler around the
  first request (gui.py line 139: generic "failed to fetch video
  information" message);
* `notFound` — the `response.status_code == 404` branch (gui.py line 143);
* `jsonError` — the `except json.JSONDecodeError` handler (line 174);
* `uncaughtTransport` — `raise_for_status()` of the retry raising inside
  the `try` block whose only handler is `json.JSONDecodeError`, so the
  exception propagates out of the method;
* `proceed` — the playback URL is composed (line 160) and resolution
  continues to the manifest; `retried` records whether the second request
  was made. -/
inductive VodResult where
  | fetchFailed : VodResult
  | notFound : VodResult
  | jsonError : VodResult
  | uncaughtTransport : VodResult
  | proceed : List Char → Option (List Char) → Option (List Char) → Bool → VodResult
deriving DecidableEq

/-- `ChzzkStreamExtractor._get_vod_streams` (gui.py lines 131–175).  The
retry condition on line 151 is `video_id is None or in_key is None and
cookies`, which by Python operator precedence parses as
`video_id is None or (in_key is None and cookies)`. -/
def getVodStreams (first retryResp : VodInfoResponse) (cookiesTruthy : Bool) : VodResult :=
  if 400 ≤ first.status then .fetchFailed
  else if first.status = 404 then .notFound
  else if first.jsonOk = false then .jsonError
  else if first.videoId.isNone || (first.inKey.isNone && cookiesTruthy) then
    if 400 ≤ retryResp.status then .uncaughtTransport
    else if retryResp.jsonOk = false then .jsonError
    else .proceed (playbackUrl retryResp.videoId retryResp.inKey) retryResp.videoId retryResp.inKey true
  else .proceed (playbackUrl first.videoId first.inKey) first.videoId first.inKey false

/-! ### Claims C3, C4, C5 -/

/-- C3 counterexample: with both credentials absent from both responses and
cookies supplied, the resolution does not fail with a dedicated
restricted-content outcome — it composes the playback URL from the
incomplete pair, interpolating the literal text `None` for both
credentials, and proceeds to the manifest fetch. -/
theorem c3_counterexample :
    getVodStreams ⟨200, true, none, none⟩ ⟨200, true, none, none⟩ true
      = .proceed (playbackUrl none none) none none true
    ∧ playbackUrl none none
      = "https://apis.naver.com/neonplayer/vodplay/v2/playback/None?key=None".toList := by
  constructor
  · rfl
  · decide

/-- C3 amended: when the credential pair is still incomplete after the
**optional** retry — whether the retry fired (the condition of gui.py line
151 held and the retry response still lacks a credential) or never fired
(the condition was false yet the first response's pair is incomplete, e.g.
`videoId` present, `inKey` absent, cookies falsy) — the resolution does
not fail with a restricted-content error; no such outcome exists in the
code.  In both cases it composes the playback URL from the incomplete
pair, with the literal text `None` substituted for each missing
credential, and proceeds. -/
theorem c3_amended_incomplete_pair_proceeds :
    (∀ (first retryResp : VodInfoResponse) (cookiesTruthy : Bool),
      first.status < 400 → first.jsonOk = true →
      (first.videoId.isNone || (first.inKey.isNone && cookiesTruthy)) = true →
      retryResp.status < 400 → retryResp.jsonOk = true →
      (retryResp.videoId = none ∨ retryResp.inKey = none) →
      getVodStreams first retryResp cookiesTruthy
        = .proceed (playbackUrl retryResp.videoId retryResp.inKey) retryResp.videoId retryResp.inKey true
      ∧ (pyFormatOpt retryResp.videoId = "None".toList ∨ pyFormatOpt retryResp.inKey = "None".toList))
    ∧ (∀ (first retryResp : VodInfoResponse) (cookiesTruthy : Bool),
      first.status < 400 → first.jsonOk = true →
      (first.videoId.isNone || (first.inKey.isNone && cookiesTruthy)) = false →
      (first.videoId = none ∨ first.inKey = none) →
      getVodStreams first retryResp cookiesTruthy
        = .proceed (playbackUrl first.videoId first.inKey) first.videoId first.inKey false
      ∧ (pyFormatOpt first.videoId = "None".toList ∨ pyFormatOpt first.inKey = "None".toList)) := by
  constructor
  · intro first retryResp cookiesTruthy h1 h2 h3 h4 h5 h6
    constructor
    · unfold getVodStreams
      rw [if_neg (by omega), if_neg (by omega), if_neg (by rw [h2]; simp), if_pos h3,
        if_neg (by omega), if_neg (by rw [h5]; simp)]
    · rcases h6 with h6 | h6
      · exact Or.inl (by rw [h6]; decide)
      · exact Or.inr (by rw [h6]; decide)
  · intro first retryResp cookiesTruthy h1 h2 h3 h6
    constructor
    · unfold getVodStreams
      rw [if_neg (by omega), if_neg (by omega), if_neg (by rw [h2]; simp),
        if_neg (by rw [h3]; simp)]
    · rcases h6 with h6 | h6
      · exact Or.inl (by rw [h6]; decide)
      · exact Or.inr (by rw [h6]; decide)

/-- C3 witness: both halves of the amended theorem at concrete responses —
the pair incomplete after a fired cookie retry, and the pair incomplete
with the retry never firing (`videoId` present, `inKey` absent, cookies
falsy). -/
theorem c3_witness :
    (getVodStreams ⟨200, true, none, some ['k']⟩ ⟨200, true, none, some ['k']⟩ true
      = .proceed (playbackUrl none (some ['k'])) none (some ['k']) true
    ∧ (pyFormatOpt (none : Option (List Char)) = "None".toList
        ∨ pyFormatOpt (some ['k']) = "None".toList))
    ∧ (getVodStreams ⟨200, true, some ['v'], none⟩ ⟨200, true, none, none⟩ false
      = .proceed (playbackUrl (some ['v']) none) (some ['v']) none false
    ∧ (pyFormatOpt (some ['v']) = "None".toList
        ∨ pyFormatOpt (none : Option (List Char)) = "None".toList)) :=
  ⟨c3_amended_incomplete_pair_proceeds.1 ⟨200, true, none, some ['k']⟩
      ⟨200, true, none, some ['k']⟩ true (by decide) (by decide) (by decide)
      (by decide) (by decide) (Or.inl rfl),
   c3_amended_incomplete_pair_proceeds.2 ⟨200, true, some ['v'], none⟩
      ⟨200, true, none, none⟩ false (by decide) (by decide) (by decide) (Or.inr rfl)⟩

/-- C4 code evaluation at the failing input: the first response is a 200
whose `content` lacks `videoId` but has `inKey`, and cookies were NOT
supplied (`cookiesTruthy = false`).  The claim says no retry may happen,
but the code retries (`retried = true`): Python parses the condition of
gui.py line 151 as `video_id is None or (in_key is None and cookies)`, so
a missing `videoId` triggers the retry regardless of cookies. -/
theorem c4_code_eval_retry_without_cookies :
    getVodStreams ⟨200, true, none, some ['k']⟩ ⟨200, true, some ['v'], some ['k']⟩ false
      = .proceed (playbackUrl (some ['v']) (some ['k'])) (some ['v']) (some ['k']) true := by
  rfl

/-- The dedicated `status_code == 404` branch of `_get_vod_streams` is
unreachable for every input: `raise_for_status()` already raised for 404. -/
lemma notFound_branch_unreachable (first retryResp : VodInfoResponse) (c : Bool) :
    getVodStreams first retryResp c ≠ .notFound := by
  intro h
  unfold getVodStreams at h
  split_ifs at h with g1 g2
  all_goals simp_all

/-- C5 code evaluation: a 404 video-info response takes the generic
transport-failure path, whatever the retry response and cookies would have
been, because `raise_for_status()` (gui.py line 137, main.py line 94)
raises `HTTPError` — a `RequestException` — for 404 before the dedicated
`status_code == 404` check is reached; that dedicated not-found branch is
dead code (`notFound_branch_unreachable`). -/
theorem c5_code_eval_404_generic (retryResp : VodInfoResponse) (c : Bool) :
    getVodStreams ⟨404, true, none, none⟩ retryResp c = .fetchFailed := rfl

/-! ## Sequential download loop: `DownloadThread.run` (gui.py lines 26–56)

The loop body executes, while `not self._is_stopped`:
`chunk = next(response.iter_content(chunk_size=8192), None)`; if `chunk`
is truthy it is written to the file, counters and the progress are
updated; a falsy chunk (Python `None`) just repeats the loop.

`response.iter_content(...)` is called afresh on every iteration.  Per the
`requests` library, each call builds a new generator over the same
underlying stream, so successive calls yield successive chunks; the call
made after the stream's natural end returns a generator that immediately
finishes (so `next(…, None)` yields the default `None`) and sets the
response's `_content_consumed` flag; every call after that raises
`StreamConsumedError`, which subclasses `RequestException`.  The
`_content_consumed` state is the `consumed : Bool` argument below.

Consequently the loop leaves its `while` only through an exception: the
`except requests.RequestException` handler emits the **completed** signal
with the message `다운로드 완료: {e}` (gui.py line 54) — this single
handler serves both natural exhaustion (`StreamConsumedError`) and genuine
transport failures.  The `except StopIteration` handler on line 55 is dead
code (`next` with a default never raises `StopIteration`), and the
`completed.emit` on line 52 is reachable only when the loop exits with
`_is_stopped` set, which the claims' Running-throughout scenarios exclude;
both control flags are therefore fixed to false here, line 52's
`stopped.emit` branch included.  No `failed` signal exists on the class
(its signals are `progress`, `completed`, `paused`, `stopped`).

Progress (line 48) is `int((downloaded_size / total_size) * 100)`: Python
true division raises `ZeroDivisionError` when `total_size = 0`, which
neither handler catches, so the thread faults.  The speed computation on
line 47 divides by elapsed wall time, assumed positive (wall time is not
modelled).  For a nonzero total the computed value is
`downloaded_size * 100 / total_size` rounded toward zero. -/

/-- One read from the chunk source: either chunk data, or a transport
failure (`requests.RequestException`) raised by the read. -/
inductive Chunk where
  | data : List Nat → Chunk
  | transportFail : Chunk
deriving DecidableEq

/-- gui.py line 48, `int((downloaded_size / total_size) * 100)`: `none`
models the `ZeroDivisionError` Python raises when `total_size` is 0. -/
def progressPct (downloaded_size total_size : Nat) : Option Nat :=
  if total_size = 0 then none else some (downloaded_size * 100 / total_size)

/-- Terminal observation of `DownloadThread.run` under Running control:
* `completedSignal viaException dl file` — the `completed` signal was
  emitted, by the `RequestException` handler (`viaException = true`,
  message `다운로드 완료: {e}`) or not, with `downloaded_size = dl` and the
  destination file holding `file`;
* `uncaughtFault dl file` — an exception neither handler catches
  (`ZeroDivisionError`) escaped `run`;
* `stillRunning dl file` — the loop had not terminated when the fuel ran
  out. -/
inductive RunResult where
  | completedSignal : Bool → Nat → List Nat → RunResult
  | uncaughtFault : Nat → List Nat → RunResult
  | stillRunning : Nat → List Nat → RunResult
deriving DecidableEq

/-- The read loop of `DownloadThread.run` with both control flags false
(Running throughout), indexed by fuel: one unit of fuel is one `while`
iteration.  `chunks` is the data remaining in the stream, `consumed` the
response's `_content_consumed` flag, `dl` the `downloaded_size` counter,
`file` the bytes written to the destination (opened with `'wb'`, so it
starts empty). -/
def runFrom (total_size : Nat) : Nat → List Chunk → Bool → Nat → List Nat → RunResult
  | 0, _, _, dl, file => .stillRunning dl file
  | fuel + 1, chunks, consumed, dl, file =>
    if consumed then .completedSignal true dl file
    else
      match chunks with
      | [] => runFrom total_size fuel [] true dl file
      | .transportFail :: _ => .completedSignal true dl file
      | .data c :: rest =>
        if c.isEmpty then runFrom total_size fuel rest false dl file
        else
          match progressPct (dl + c.length) total_size with
          | none => .uncaughtFault (dl + c.length) (file ++ c)
          | some _ => runFrom total_size fuel rest false (dl + c.length) (file ++ c)

lemma runFrom_consumed (total_size fuel dl : Nat) (chunks : List Chunk) (file : List Nat) :
    runFrom total_size (fuel + 1) chunks true dl file = .completedSignal true dl file := rfl

lemma runFrom_datas (datas : List (List Nat)) (total_size : Nat) :
    ∀ (dl : Nat) (file : List Nat), (∀ c ∈ datas, c ≠ [] → total_size ≠ 0) →
    runFrom total_size (datas.length + 2) (datas.map Chunk.data) false dl file
      = .completedSignal true (dl + (datas.map List.length).sum) (file ++ datas.flatten) := by
  induction datas with
  | nil =>
    intro dl file _
    simp [runFrom]
  | cons c rest ih =>
    intro dl file h
    have hrest : ∀ d ∈ rest, d ≠ [] → total_size ≠ 0 :=
      fun d hd => h d (by simp [hd])
    show runFrom total_size (rest.length + 2 + 1) (Chunk.data c :: rest.map Chunk.data) false dl file = _
    rw [runFrom]
    simp only [Bool.false_eq_true, if_false]
    by_cases hc : c = []
    · subst hc
      rw [show (List.isEmpty ([] : List Nat)) = true from rfl]
      simp only [if_true]
      rw [ih dl file hrest]
      simp
    · have hemp : c.isEmpty = false := by
        cases c with
        | nil => exact absurd rfl hc
        | cons x xs => rfl
      rw [hemp]
      simp only [Bool.false_eq_true, if_false]
      have ht : total_size ≠ 0 := h c (by simp) hc
      rw [show progressPct (dl + c.length) total_size
          = some ((dl + c.length) * 100 / total_size) from by simp [progressPct, ht]]
      rw [ih (dl + c.length) (file ++ c) hrest]
      simp [Nat.add_assoc]

/-! ### Claims C1, C2, C8 -/

/-- C1: for every finite source of chunk data, with the control state
Running throughout, the sequential loop terminates once the source
exhausts — after one `None` read, the next `iter_content` call raises
`StreamConsumedError`, a `RequestException`, whose handler emits the
terminal `completed` signal — and at that point `downloaded_size` equals
the total number of source bytes `N` and the destination file holds
exactly those `N` bytes. -/
theorem c1_sequential_completion (datas : List (List Nat)) :
    runFrom ((datas.map List.length).sum) (datas.length + 2) (datas.map Chunk.data) false 0 []
      = .completedSignal true ((datas.map List.length).sum) datas.flatten
    ∧ datas.flatten.length = (datas.map List.length).sum := by
  constructor
  · have h : ∀ c ∈ datas, c ≠ [] → (datas.map List.length).sum ≠ 0 := by
      intro c hc hne h0
      have hmem : c.length ∈ datas.map List.length := List.mem_map_of_mem _ hc
      have hle : c.length ≤ (datas.map List.length).sum := List.le_sum_of_mem hmem
      have : c.length = 0 := by omega
      exact hne (List.eq_nil_of_length_eq_zero this)
    have := runFrom_datas datas ((datas.map List.length).sum) 0 [] h
    simpa using this
  · exact List.length_flatten datas

/-- C2 counterexample: a transport failure raised while reading the next
chunk is caught by the `except requests.RequestException` handler, which
emits the **completed** signal (message `다운로드 완료: {e}`), so a
completed event is emitted — the claim says a failed event is emitted and
a completed event never is.  No `failed` signal exists on the class. -/
theorem c2_counterexample :
    runFrom 100 1 [Chunk.transportFail] false 0 [] = .completedSignal true 0 [] := rfl

/-- C2 amended: for every transport failure raised during the read loop,
the engine emits exactly one terminal event — the `completed` signal, from
the `RequestException` handler, with the error interpolated into its
message — and no automatic retry occurs; the class has no failed event. -/
theorem c2_amended_transport_completed (total_size fuel dl : Nat)
    (rest : List Chunk) (file : List Nat) :
    runFrom total_size (fuel + 1) (Chunk.transportFail :: rest) false dl file
      = .completedSignal true dl file := rfl

/-- C8 counterexample: with `total_size = 0` the very first nonempty chunk
makes `int((downloaded_size / total_size) * 100)` raise
`ZeroDivisionError`, which neither `except` clause catches: the engine
faults after writing the chunk — the claim says the computation is
zero-guarded and the engine does not fault. -/
theorem c8_counterexample :
    runFrom 0 1 [Chunk.data [7]] false 0 [] = .uncaughtFault 1 [7]
    ∧ progressPct 1 0 = none := ⟨rfl, rfl⟩

/-- C8 amended: the per-chunk progress computation is not guarded against
`total_size = 0`: processing any nonempty chunk when the reported total is
0 performs a division by zero (`ZeroDivisionError`), uncaught by the
loop's handlers, and the engine faults with the chunk already written. -/
theorem c8_amended_zero_total_faults (fuel dl : Nat) (x : Nat) (xs : List Nat)
    (rest : List Chunk) (file : List Nat) :
    progressPct (dl + (x :: xs).length) 0 = none
    ∧ runFrom 0 (fuel + 1) (Chunk.data (x :: xs) :: rest) false dl file
      = .uncaughtFault (dl + (x :: xs).length) (file ++ (x :: xs)) := ⟨rfl, rfl⟩

/-! ## Concurrent segmented download: `download_video` (main.py lines 32–65)

Segmentation (lines 42–50):
`part_size = 1024 * 1024 * 10`,
`parts = total_size // part_size + (1 if total_size % part_size else 0)`,
and for each `part` in `range(parts)`:
`start = part * part_size`,
`end = start + part_size - 1 if (start + part_size - 1) < total_size else total_size`,
with the ranged request header `Range: bytes={start}-{end}` — an HTTP
byte range whose `end` index is **inclusive**.

Writing (lines 58–62): as each future completes (arrival order, not index
order), its bytes are appended to the destination file, opened with
`open(output_path, 'ab')` — append mode, never truncating. -/

/-- main.py line 42: the fixed segment size, 10 MiB. -/
def part_size : Nat := 1024 * 1024 * 10

/-- main.py line 43: the number of scheduled segments. -/
def parts (total_size : Nat) : Nat :=
  total_size / part_size + (if total_size % part_size ≠ 0 then 1 else 0)

/-- main.py line 48: the first byte index of a segment's ranged request. -/
def rangeStart (part : Nat) : Nat := part * part_size

/-- main.py line 49: the last byte index of a segment's ranged request
(inclusive, as in the `Range` header).  The subtraction cannot underflow
since `part_size ≥ 1`. -/
def rangeEnd (total_size part : Nat) : Nat :=
  if rangeStart part + part_size - 1 < total_size
  then rangeStart part + part_size - 1
  else total_size

/-- The number of byte positions the inclusive range
`bytes={rangeStart}-{rangeEnd}` of a segment's request covers. -/
def rangeLen (total_size part : Nat) : Nat :=
  rangeEnd total_size part - rangeStart part + 1

/-- The total number of byte positions covered by all scheduled segments'
ranged requests. -/
def totalRequested (total_size : Nat) : Nat :=
  ((List.range (parts total_size)).map (rangeLen total_size)).sum

/-- The write loop of main.py lines 58–62: the destination file already
holds `initFile`; each completed segment's bytes are appended in arrival
order (the file is opened with `'ab'` for every write). -/
def appendSegments (initFile : List Nat) (partsData : List (List Nat)) : List Nat :=
  partsData.foldl (fun f d => f ++ d) initFile

/-! ### Claims C7 and C10 -/

/-- C7 counterexample: at `total_size = 25 MiB` the claim's segment sizes
(10, 10, 5 MiB summing exactly to `totalBytes`) do not hold of the
requests the code issues: the final segment's inclusive range end is
`total_size` itself — one past the last byte index `total_size - 1` — so
that request covers `5 MiB + 1` byte positions, not `5 MiB`, and the
requested ranges sum to `totalBytes + 1`, not `totalBytes`. -/
theorem c7_counterexample :
    rangeLen (25 * 1024 * 1024) 2 = 5 * 1024 * 1024 + 1
    ∧ totalRequested (25 * 1024 * 1024) = 25 * 1024 * 1024 + 1 := by decide

/-- C7 amended: for `totalBytes = 25 MiB` exactly 3 segments are
scheduled; the first two ranged requests cover precisely the disjoint
ranges `[0, 10 MiB)` and `[10 MiB, 20 MiB)` (inclusive ends
`10 MiB - 1` and `20 MiB - 1`, each adjacent to the next start); the final
request starts at `20 MiB` but its inclusive end is `25 MiB` — one past
the last byte index — so its nominal length is `5 MiB + 1` and the
requested lengths sum to `totalBytes + 1`, not `totalBytes`. -/
theorem c7_amended_segmentation :
    parts (25 * 1024 * 1024) = 3
    ∧ rangeStart 0 = 0
    ∧ rangeEnd (25 * 1024 * 1024) 0 = 10 * 1024 * 1024 - 1
    ∧ rangeStart 1 = 10 * 1024 * 1024
    ∧ rangeEnd (25 * 1024 * 1024) 1 = 20 * 1024 * 1024 - 1
    ∧ rangeStart 2 = 20 * 1024 * 1024
    ∧ rangeEnd (25 * 1024 * 1024) 2 = 25 * 1024 * 1024
    ∧ rangeEnd (25 * 1024 * 1024) 0 + 1 = rangeStart 1
    ∧ rangeEnd (25 * 1024 * 1024) 1 + 1 = rangeStart 2
    ∧ rangeLen (25 * 1024 * 1024) 0 = 10 * 1024 * 1024
    ∧ rangeLen (25 * 1024 * 1024) 1 = 10 * 1024 * 1024
    ∧ rangeLen (25 * 1024 * 1024) 2 = 5 * 1024 * 1024 + 1
    ∧ totalRequested (25 * 1024 * 1024) = 25 * 1024 * 1024 + 1 := by decide

lemma appendSegments_eq_flatten (partsData : List (List Nat)) :
    ∀ (initFile : List Nat), appendSegments initFile partsData = initFile ++ partsData.flatten := by
  induction partsData with
  | nil => intro initFile; simp [appendSegments]
  | cons d rest ih =>
    intro initFile
    show appendSegments (initFile ++ d) rest = _
    rw [ih (initFile ++ d)]
    simp

/-- C10: the concurrent download appends every completed segment to the
destination file in append mode and never truncates it: for every
preexisting file content and every arrival order of segment data, the
final file is the old content followed by the fetched bytes — its length
is the old length plus the total number of bytes fetched, and the
preexisting bytes are unchanged. -/
theorem c10_append_preserves_existing (initFile : List Nat) (partsData : List (List Nat)) :
    appendSegments initFile partsData = initFile ++ partsData.flatten
    ∧ (appendSegments initFile partsData).length
      = initFile.length + (partsData.map List.length).sum
    ∧ (appendSegments initFile partsData).take initFile.length = initFile := by
  refine ⟨appendSegments_eq_flatten partsData initFile, ?_, ?_⟩
  · rw [appendSegments_eq_flatten partsData initFile]
    simp [List.length_flatten]
  · rw [appendSegments_eq_flatten partsData initFile]
    exact List.take_left initFile partsData.flatten

end Chzzk
